import Mathlib

/-!
Verification of the Million Dollar Homepage analytics application.

The development shallowly embeds the data model (`AreaData`, `DomainAnalytics`,
`SearchFilters` from the TypeScript types module), the search/filter store
(`setSearchQuery`, `setFilters`, `clearSearch`, `highlightDomain`,
`clearHighlights`, `setSelectedDomain` and the `applyFilters` helper of the
zustand app store), the coordinate parsers (the runtime
`coordinateUtils.parseMapCoordinates`, the overlay parser of `InteractiveMap`,
and the offline `parse-area-map.js` conversion), the tooltip placement function
of `DomainTooltip`, the domain lookup map construction, the export data
selection of `ExportData`, and the dataset-load retry logic of `App.tsx`.

Machine integers of the source are modelled as `Int` (pixel coordinates and
HTTP status codes are small and never overflow in the source). ISO date
strings compared through `new Date` are modelled as `Option Int` timestamps,
`none` standing for an absent or empty field. The Fuse.js fuzzy index is an
external library, not repository code; it is modelled as an abstract function
`String → List AreaData` wherever the store consults it.
-/

namespace MDH

/-- Rectangle model of the `AreaCoordinates` interface: `x`, `y`, `width`,
`height` as numbers. -/
structure AreaCoordinates where
  x : Int
  y : Int
  width : Int
  height : Int
deriving DecidableEq, Repr

/-- Model of the `DomainAnalytics` interface. Fields the store reads through
optional chaining (`analytics?.dns_status`, `analytics?.http_status?.`,
`analytics?.nameservers && ...`) are `Option`-valued so that a record lacking
a field can be expressed; date strings become `Option Int` timestamps. -/
structure DomainAnalytics where
  dns_status : Option String
  http_status : Option Int
  whois_status : Option String
  registered_at : Option Int
  nameservers : Option (List String)
deriving DecidableEq, Repr

/-- Model of the `AreaData` interface: `analytics` is nullable. -/
structure AreaData where
  id : Nat
  domain : String
  title : String
  coordinates : AreaCoordinates
  analytics : Option DomainAnalytics
  hasAnalytics : Bool
deriving DecidableEq, Repr

/-- Model of the `SearchFilters` interface: every field is optional; an
absent field is `none`. `domainLength` carries optional `min`/`max` bounds,
`dateRange` optional `start`/`end` timestamps. -/
structure SearchFilters where
  dnsStatus : Option String
  httpStatus : Option String
  whoisStatus : Option String
  hasAnalytics : Option Bool
  domainLength : Option (Option Nat × Option Nat)
  dateRange : Option (Option Int × Option Int)
  hasNameservers : Option Bool
  searchInTitle : Option Bool
deriving DecidableEq, Repr

/-- Model of JavaScript `String.prototype.trim`, computing on the character
list of the string. -/
def jsTrim (s : String) : String :=
  String.mk
    (((s.data.dropWhile Char.isWhitespace).reverse.dropWhile
        Char.isWhitespace).reverse)

/-- Model of JavaScript `String.prototype.toLowerCase` on the character
list (ASCII case mapping, which covers every domain and title token the
dataset carries). -/
def jsToLower (s : String) : String := String.mk (s.data.map Char.toLower)

/-- Model of JavaScript `String.prototype.startsWith` on character lists. -/
def jsStartsWith (s p : String) : Bool := p.data.isPrefixOf s.data

/-- Model of JavaScript `String.prototype.split(",")` on character lists:
split at every comma, keeping empty segments, `[""]` for the empty string. -/
def jsSplitComma (s : String) : List String :=
  (s.data.splitOn ',').map String.mk

/-- The empty filter object `{}`. -/
def emptyFilters : SearchFilters :=
  ⟨none, none, none, none, none, none, none, none⟩

/-- The `hasFilters` guard of `applyFilters`: some filter value is present
(neither `undefined` nor `null`). -/
def hasActiveFilters (f : SearchFilters) : Bool :=
  f.dnsStatus.isSome || f.httpStatus.isSome || f.whoisStatus.isSome ||
  f.hasAnalytics.isSome || f.domainLength.isSome || f.dateRange.isSome ||
  f.hasNameservers.isSome || f.searchInTitle.isSome

/-- Condition pushed for `filters.dnsStatus`:
`area.analytics?.dns_status === filters.dnsStatus`. -/
def condDns (f : SearchFilters) (a : AreaData) : Bool :=
  match f.dnsStatus with
  | none => true
  | some v =>
    match a.analytics.bind (fun an => an.dns_status) with
    | some s => s == v
    | none => false

/-- Condition pushed for `filters.httpStatus`:
`area.analytics?.http_status?.toString() === filters.httpStatus`. -/
def condHttp (f : SearchFilters) (a : AreaData) : Bool :=
  match f.httpStatus with
  | none => true
  | some v =>
    match a.analytics.bind (fun an => an.http_status) with
    | some n => toString n == v
    | none => false

/-- Condition pushed for `filters.whoisStatus`:
`area.analytics?.whois_status === filters.whoisStatus`. -/
def condWhois (f : SearchFilters) (a : AreaData) : Bool :=
  match f.whoisStatus with
  | none => true
  | some v =>
    match a.analytics.bind (fun an => an.whois_status) with
    | some s => s == v
    | none => false

/-- Condition pushed for `filters.hasAnalytics`:
`area.hasAnalytics === filters.hasAnalytics`. -/
def condHasAnalytics (f : SearchFilters) (a : AreaData) : Bool :=
  match f.hasAnalytics with
  | none => true
  | some v => a.hasAnalytics == v

/-- Condition pushed for `filters.domainLength` when a `min` or `max` bound
is present: the domain length lies within the given bounds. -/
def condDomainLength (f : SearchFilters) (a : AreaData) : Bool :=
  match f.domainLength with
  | none => true
  | some (mn, mx) =>
    if mn.isSome || mx.isSome then
      (match mn with
       | none => true
       | some m => decide (a.domain.length ≥ m)) &&
      (match mx with
       | none => true
       | some m => decide (a.domain.length ≤ m))
    else true

/-- Condition pushed for `filters.dateRange` when a `start` or `end` bound is
present: `if (!area.analytics?.registered_at) return false` then compare the
registration date against the bounds. -/
def condDateRange (f : SearchFilters) (a : AreaData) : Bool :=
  match f.dateRange with
  | none => true
  | some (s, e) =>
    if s.isSome || e.isSome then
      match a.analytics.bind (fun an => an.registered_at) with
      | none => false
      | some r =>
        (match s with
         | none => true
         | some sv => decide (r ≥ sv)) &&
        (match e with
         | none => true
         | some ev => decide (r ≤ ev))
    else true

/-- `Boolean(area.analytics?.nameservers && area.analytics.nameservers.length > 0)`. -/
def hasNameserversB (a : AreaData) : Bool :=
  match a.analytics with
  | none => false
  | some an =>
    match an.nameservers with
    | none => false
    | some l => decide (l.length > 0)

/-- Condition pushed for `filters.hasNameservers`: if filtering for
nameservers, require them; otherwise require their absence. -/
def condNameservers (f : SearchFilters) (a : AreaData) : Bool :=
  match f.hasNameservers with
  | none => true
  | some want => if want then hasNameserversB a else !(hasNameserversB a)

/-- Conjunction of all filter conditions pushed by `applyFilters`
(`filterConditions.every(condition => condition(area))`). -/
def matchesFilters (f : SearchFilters) (a : AreaData) : Bool :=
  condDns f a && condHttp f a && condWhois f a && condHasAnalytics f a &&
  condDomainLength f a && condDateRange f a && condNameservers f a

/-- The `applyFilters` helper of the app store: early return of the candidate
list when no filter value is active, else keep the candidates satisfying every
pushed condition, preserving order. -/
def applyFilters (areas : List AreaData) (f : SearchFilters) : List AreaData :=
  if hasActiveFilters f then areas.filter (matchesFilters f) else areas

/-- Insertion-order deduplication, the semantics of
`Array.from(new Set(results.map(area => area.domain)))`: keep the first
occurrence of every element. -/
def dedupFirstAux : List String → List String → List String
  | _, [] => []
  | seen, a :: l =>
    if a ∈ seen then dedupFirstAux seen l
    else a :: dedupFirstAux (a :: seen) l

/-- Insertion-order deduplication starting from an empty seen set. -/
def dedupFirst (l : List String) : List String := dedupFirstAux [] l

/-- The query state of the store (`SearchState`). -/
structure QueryState where
  query : String
  results : List AreaData
  filters : SearchFilters
  selectedDomain : Option String
  highlightedAreas : List String
deriving DecidableEq, Repr

/-- State of the store right after `setAppData` ran on a loaded registry:
the `SearchState` fields keep their initial values. -/
def initialState : QueryState :=
  ⟨"", [], emptyFilters, none, []⟩

/-- The store actions that touch the query state. -/
inductive Action where
  | setSearchQuery (q : String)
  | setFilters (f : SearchFilters)
  | setSelectedDomain (d : Option String)
  | clearSearch
  | highlightDomain (d : String)
  | clearHighlights
deriving DecidableEq, Repr

/-- The text-search step shared by `setSearchQuery` and `setFilters`: fuzzy
search through the Fuse index (modelled by the abstract `fuse` function,
which already carries the 1000-result search limit) when the trimmed query
has length at least `MIN_MATCH_CHAR_LENGTH` (2); lowercase prefix match on
domain or title, capped at `SEARCH_LIMIT` (1000), for a single-character
query; the first 1000 registry areas otherwise. -/
def textSearchStep (fuse : String → List AreaData) (areas : List AreaData)
    (query : String) : List AreaData :=
  let tq := jsTrim query
  if tq ≠ "" ∧ tq.length ≥ 2 then fuse tq
  else if tq.length > 0 ∧ tq.length < 2 then
    (areas.filter (fun a =>
      jsStartsWith (jsToLower a.domain) (jsToLower tq) ||
      jsStartsWith (jsToLower a.title) (jsToLower tq))).take 1000
  else areas.take 1000

/-- One store action applied to the query state, with a loaded registry
`areas` and Fuse index `fuse`. `setSearchQuery` and `setFilters` recompute
`results` from the text-search step and `applyFilters`, then derive
`highlightedAreas` as the deduplicated domains of `results`; `clearSearch`
resets every field; `highlightDomain` appends a missing domain;
`clearHighlights` empties the highlight list. -/
def step (fuse : String → List AreaData) (areas : List AreaData)
    (s : QueryState) : Action → QueryState
  | .setSearchQuery q =>
    let results := applyFilters (textSearchStep fuse areas q) s.filters
    { s with
      query := q
      results := results
      highlightedAreas := dedupFirst (results.map (fun a => a.domain)) }
  | .setFilters f =>
    let results := applyFilters (textSearchStep fuse areas s.query) f
    { s with
      filters := f
      results := results
      highlightedAreas := dedupFirst (results.map (fun a => a.domain)) }
  | .setSelectedDomain d => { s with selectedDomain := d }
  | .clearSearch =>
    { query := ""
      results := []
      filters := emptyFilters
      selectedDomain := none
      highlightedAreas := [] }
  | .highlightDomain d =>
    if d ∈ s.highlightedAreas then s
    else { s with highlightedAreas := s.highlightedAreas ++ [d] }
  | .clearHighlights => { s with highlightedAreas := [] }

/-- Run a sequence of store actions from the freshly loaded state. -/
def runActions (fuse : String → List AreaData) (areas : List AreaData)
    (acts : List Action) : QueryState :=
  acts.foldl (step fuse areas) initialState

/-- Following the claim of the spec invariant word for word: the text-search
step is the fuzzy index for trimmed length at least 2, the prefix match for
length 1, and no text filter when the query is empty — with no result cap. -/
def specResultsClaim (fuse : String → List AreaData) (areas : List AreaData)
    (query : String) (filters : SearchFilters) : List AreaData :=
  let tq := jsTrim query
  applyFilters
    (if tq.length ≥ 2 then fuse tq
     else if tq.length = 1 then
       areas.filter (fun a =>
         jsStartsWith (jsToLower a.domain) (jsToLower tq) ||
         jsStartsWith (jsToLower a.title) (jsToLower tq))
     else areas)
    filters

/-- The `getTooltipPosition` computation of `DomainTooltip`: start from the
stored tooltip position plus `(5, 5)`; flip left of the position when the
320-wide tooltip would cross `viewportWidth - 20`; shift up by 200 when the
300-tall tooltip would cross `viewportHeight - 20`; clamp both coordinates
to at least the 20-pixel padding. -/
def getTooltipPosition (px py vw vh : Int) : Int × Int :=
  let left := px + 5
  let left := if left + 320 > vw - 20 then px - 320 - 5 else left
  let left := if left < 20 then 20 else left
  let top := py + 5
  let top := if top + 300 > vh - 20 then py - 300 + 100 else top
  let top := if top < 20 then 20 else top
  (left, top)

/-- Following the claim word for word: the default horizontal placement is
`pointer.x + 15`, flipped to `pointer.x - 320 - 5` when
`left + 320 > viewport.width - 20`, then clamped to at least 20. -/
def specTooltipLeft (px vw : Int) : Int :=
  let left := px + 15
  let left := if left + 320 > vw - 20 then px - 320 - 5 else left
  if left < 20 then 20 else left

/-- Decimal value of a digit list. -/
def digitsVal (l : List Char) : Int :=
  Int.ofNat (l.foldl (fun n c => 10 * n + (c.toNat - 48)) 0)

/-- Model of `Number(token)` on the integer tokens of `coords` attributes:
an optional minus sign followed by decimal digits; the empty token coerces
to 0; anything else is NaN (`none`). -/
def jsNumber? (s : String) : Option Int :=
  match s.data with
  | [] => some 0
  | c :: cs =>
    if c = '-' then
      if cs ≠ [] ∧ cs.all Char.isDigit then some (-(digitsVal cs)) else none
    else if (c :: cs).all Char.isDigit then some (digitsVal (c :: cs))
    else none

/-- The rectangle conversion inside `coordinateUtils.parseMapCoordinates`:
`x = min(x1,x2)`, `y = min(y1,y2)`, `width = |x2-x1|`, `height = |y2-y1|`. -/
def quadToRect (x1 y1 x2 y2 : Int) : AreaCoordinates :=
  ⟨min x1 x2, min y1 y2, |x2 - x1|, |y2 - y1|⟩

/-- `coordinateUtils.parseMapCoordinates`: reject a falsy `coords` string,
split on commas, coerce each token with `Number`, reject unless exactly four
non-NaN coordinates remain, and convert with `quadToRect`. -/
def parseMapCoordinates (coords : String) : Option AreaCoordinates :=
  if coords = "" then none
  else
    match (jsSplitComma coords).map jsNumber? with
    | [some x1, some y1, some x2, some y2] => some (quadToRect x1 y1 x2 y2)
    | _ => none

/-- The coordinate conversion of the offline `parse-area-map.js` script:
`{x: x1, y: y1, width: x2 - x1, height: y2 - y1}` with no reordering of the
corners. The script itself performs no NaN or length guard before
destructuring; the `Option` guard restricts the model to the well-formed
quads the claim quantifies over. -/
def parseAreaMapRect (coords : String) : Option AreaCoordinates :=
  match (jsSplitComma coords).map jsNumber? with
  | [some x1, some y1, some x2, some y2] => some ⟨x1, y1, x2 - x1, y2 - y1⟩
  | _ => none

/-- The coordinate validity check of the `InteractiveMap` overlay
(`parsedCoordinates`): within the 1000 by 1000 image and positive extent. -/
def isValidRect (r : AreaCoordinates) : Bool :=
  decide (r.x ≥ 0) && decide (r.y ≥ 0) &&
  decide (r.x + r.width ≤ 1000) && decide (r.y + r.height ≤ 1000) &&
  decide (r.width > 0) && decide (r.height > 0)

/-- An entry of the overlay render list: either an HTML map area carrying a
raw `coords` string, or a registry `AreaData` record used as fallback when
the HTML map resource is unavailable. -/
inductive RenderSource where
  | html (coords : String)
  | data (a : AreaData)
deriving DecidableEq, Repr

/-- The per-area geometry computed by `parsedCoordinates` in
`InteractiveMap`: HTML areas are split, coerced with `Number`, converted via
min/abs and bounds-checked, storing `null` on any failure; registry areas
store their `coordinates` field directly, with no validation. The overlay
renders exactly the entries that are not `null`. -/
def parsedCoordinatesEntry : RenderSource → Option AreaCoordinates
  | .html coords =>
    match (jsSplitComma coords).map jsNumber? with
    | [some x1, some y1, some x2, some y2] =>
      let r := quadToRect x1 y1 x2 y2
      if isValidRect r then some r else none
    | _ => none
  | .data a => some a.coordinates

/-- One `Map.set(key, value)` step on an association-list model of a
JavaScript `Map`: replace the value in place when the key exists, append
otherwise. -/
def jsMapSet (m : List (String × AreaData)) (k : String) (v : AreaData) :
    List (String × AreaData) :=
  if m.any (fun p => p.1 == k) then
    m.map (fun p => if p.1 == k then (k, v) else p)
  else m ++ [(k, v)]

/-- `Map.get(key)` on the association-list model. -/
def mapGet (m : List (String × AreaData)) (k : String) : Option AreaData :=
  (m.find? (fun p => p.1 == k)).map (fun p => p.2)

/-- The domain lookup map built by `setAppData` (and identically by
`domainLookupMap` in `InteractiveMap`):
`data.areas.forEach(area => domainMap.set(area.domain, area))`. -/
def buildDomainMap (areas : List AreaData) : List (String × AreaData) :=
  areas.foldl (fun m a => jsMapSet m a.domain a) []

/-- `getDataToExport` of `ExportData`: the current results when the
only-filtered option is on and results are non-empty, else the full loaded
registry (empty when no data is loaded). -/
def getDataToExport (onlyFiltered : Bool) (results : List AreaData)
    (appData : Option (List AreaData)) : List AreaData :=
  if onlyFiltered && decide (results.length > 0) then results
  else appData.getD []

/-- The kinds of error thrown inside `loadAppData` in `App.tsx`: the offline
guard, the abort timeout, a network failure, the HTTP status branches, the
content-type check, JSON parsing, and the four top-level document
validations. -/
inductive LoadErrorKind where
  | offline
  | timeout
  | network
  | httpNotFound
  | httpServer
  | httpOther
  | invalidContentType
  | jsonParse
  | invalidFormat
  | missingAreas
  | emptyAreas
  | invalidMetadata
  | invalidTotalAreas
deriving DecidableEq, Repr

/-- The automatic retry decision in the catch block of `loadAppData`:
`if (attempt < 3 && navigator.onLine)` — the error kind is not consulted. -/
def retriesAfterFailure (attempt : Nat) (online : Bool)
    (_e : LoadErrorKind) : Bool :=
  decide (attempt < 3) && online

/-- The backoff before retry `attempt + 1`:
`Math.pow(2, attempt) * 1000` milliseconds. -/
def retryDelayMs (attempt : Nat) : Nat := 2 ^ attempt * 1000

/-- Number of fetch attempts `loadAppData` performs while online, given the
outcome of each successive attempt (`ok` for success, `error` for a thrown
error of some kind): it stops on success or when the retry decision denies
another attempt. -/
def runAttempts : Nat → List (Except LoadErrorKind Unit) → Nat
  | _, [] => 0
  | attempt, o :: rest =>
    1 + (match o with
         | .ok _ => 0
         | .error e =>
           if retriesAfterFailure attempt true e then
             runAttempts (attempt + 1) rest
           else 0)

/-- Total attempts of one online `loadAppData` invocation starting at
attempt 1. -/
def totalAttempts (outcomes : List (Except LoadErrorKind Unit)) : Nat :=
  runAttempts 1 outcomes

/-- An analytics-based filter is active but the area record cannot supply
the constrained field: the analytics record is `null` or the field itself is
absent (for `hasNameservers` the filter must ask for present nameservers,
since asking for their absence matches an area without analytics). -/
def lacksConstrainedField (f : SearchFilters) (a : AreaData) : Prop :=
  (f.dnsStatus.isSome = true ∧ a.analytics.bind (fun an => an.dns_status) = none) ∨
  (f.httpStatus.isSome = true ∧ a.analytics.bind (fun an => an.http_status) = none) ∨
  (f.whoisStatus.isSome = true ∧ a.analytics.bind (fun an => an.whois_status) = none) ∨
  ((match f.dateRange with
    | some (s, e) => s.isSome || e.isSome
    | none => false) = true ∧
   a.analytics.bind (fun an => an.registered_at) = none) ∨
  (f.hasNameservers = some true ∧ hasNameserversB a = false)

/-- `f'` is `f` with exactly one additional active filter: one field of `f`
that was absent is now set. -/
def extendsByOne (f f' : SearchFilters) : Prop :=
  (f.dnsStatus = none ∧ ∃ v, f' = { f with dnsStatus := some v }) ∨
  (f.httpStatus = none ∧ ∃ v, f' = { f with httpStatus := some v }) ∨
  (f.whoisStatus = none ∧ ∃ v, f' = { f with whoisStatus := some v }) ∨
  (f.hasAnalytics = none ∧ ∃ v, f' = { f with hasAnalytics := some v }) ∨
  (f.domainLength = none ∧ ∃ v, f' = { f with domainLength := some v }) ∨
  (f.dateRange = none ∧ ∃ v, f' = { f with dateRange := some v }) ∨
  (f.hasNameservers = none ∧ ∃ v, f' = { f with hasNameservers := some v })

theorem not_mem_applyFilters_of {f : SearchFilters} {a : AreaData}
    (areas : List AreaData) (hact : hasActiveFilters f = true)
    (hm : matchesFilters f a = false) : a ∉ applyFilters areas f := by
  simp [applyFilters, hact, List.mem_filter, hm]

/-- C4: corrected. The offline `parse-area-map.js` conversion keeps the raw
corner order, so parsing "300,400,100,200" yields the rectangle
x 300, y 400, width -200, height -200 rather than the claimed
x 100, y 200, width 200, height 200. -/
theorem c4_counterexample :
    parseAreaMapRect "300,400,100,200" =
      some ⟨300, 400, -200, -200⟩ ∧
    (⟨300, 400, -200, -200⟩ : AreaCoordinates) ≠ ⟨100, 200, 200, 200⟩ := by
  exact ⟨by decide, by decide⟩

/-- C4 (amended): the runtime coordinate parser
`coordinateUtils.parseMapCoordinates` converts a quad through
x = min, y = min, width and height absolute differences, so it is
independent of the corner order, and both "100,200,300,400" and
"300,400,100,200" parse to the rectangle x 100, y 200, width 200,
height 200; the offline `parse-area-map.js` script does not reorder
corners. -/
theorem c4_theorem :
    (∀ x1 y1 x2 y2 : Int, quadToRect x1 y1 x2 y2 = quadToRect x2 y2 x1 y1) ∧
    parseMapCoordinates "100,200,300,400" = some ⟨100, 200, 200, 200⟩ ∧
    parseMapCoordinates "300,400,100,200" = some ⟨100, 200, 200, 200⟩ := by
  refine ⟨fun x1 y1 x2 y2 => ?_, by decide, by decide⟩
  simp [quadToRect, min_comm, abs_sub_comm]

/-- C5: corrected. A registry `AreaData` record whose rectangle violates the
validity invariant (here x 990, y 990, width 50, height 50, crossing the
1000 bound) is still given a non-null entry by the overlay coordinate pass,
hence rendered, while it also stays in the registry listing: the validity
check only guards the HTML-map branch. -/
theorem c5_counterexample :
    isValidRect ⟨990, 990, 50, 50⟩ = false ∧
    parsedCoordinatesEntry
        (.data ⟨7, "overflow.com", "Overflow", ⟨990, 990, 50, 50⟩, none, false⟩) =
      some ⟨990, 990, 50, 50⟩ ∧
    (⟨7, "overflow.com", "Overflow", ⟨990, 990, 50, 50⟩, none, false⟩ : AreaData) ∈
      [(⟨7, "overflow.com", "Overflow", ⟨990, 990, 50, 50⟩, none, false⟩ : AreaData)] := by
  exact ⟨by decide, by decide, by decide⟩

/-- C5 (amended): every HTML-map area that reaches the renderable overlay
set has a rectangle satisfying the validity invariant (invalid ones map to
null and are skipped), while a registry `AreaData` fallback entry always
passes its stored `coordinates` through unvalidated. -/
theorem c5_theorem :
    (∀ coords : String,
      (parsedCoordinatesEntry (.html coords)).all isValidRect = true) ∧
    (∀ a : AreaData, parsedCoordinatesEntry (.data a) = some a.coordinates) := by
  refine ⟨fun coords => ?_, fun a => rfl⟩
  simp only [parsedCoordinatesEntry]
  split
  · next x1 y1 x2 y2 _ =>
    by_cases h : isValidRect (quadToRect x1 y1 x2 y2) = true
    · simp [h]
    · simp [h]
  · rfl

/-- C6: corrected. The tooltip placement function of `DomainTooltip` offsets
the stored position by +5 horizontally, not by the claimed +15: at position
(10, 10) in a 1000 by 1000 viewport the code yields left 20 (clamped from
15) while the reference formula of the claim yields left 25. -/
theorem c6_counterexample :
    getTooltipPosition 10 10 1000 1000 = (20, 20) ∧
    specTooltipLeft 10 1000 = 25 ∧
    ((20 : Int), (20 : Int)).1 ≠ 25 := by
  exact ⟨by decide, by decide, by decide⟩

/-- C6 (amended): `getTooltipPosition` equals the placement rule with +5/+5
offsets from the stored tooltip position: flip to x - 325 when
x + 325 would cross viewportWidth - 20, shift the top to y - 200 when
y + 305 would cross viewportHeight - 20, and clamp both coordinates to the
20 pixel padding; a position (950, 950) in a (1000, 1000) viewport flips
both ways to (625, 750), and (10, 10) clamps to (20, 20). The lower-half
test of the claim lives in the hover handler, not in this function. -/
theorem c6_theorem :
    (∀ px py vw vh : Int,
      getTooltipPosition px py vw vh =
        (max (if px + 325 > vw - 20 then px - 325 else px + 5) 20,
         max (if py + 305 > vh - 20 then py - 200 else py + 5) 20)) ∧
    getTooltipPosition 950 950 1000 1000 = (625, 750) ∧
    getTooltipPosition 10 10 1000 1000 = (20, 20) := by
  refine ⟨fun px py vw vh => ?_, by decide, by decide⟩
  simp only [getTooltipPosition, Prod.mk.injEq, max_def]
  constructor <;> split_ifs <;> omega

/-- C9: corrected. With the only-filtered option enabled but an empty
current results list, the export selection falls back to the full loaded
registry instead of serializing the empty results list. -/
theorem c9_counterexample :
    getDataToExport true []
        (some [⟨3, "only.com", "Only", ⟨0, 0, 5, 5⟩, none, false⟩]) =
      [⟨3, "only.com", "Only", ⟨0, 0, 5, 5⟩, none, false⟩] ∧
    [(⟨3, "only.com", "Only", ⟨0, 0, 5, 5⟩, none, false⟩ : AreaData)] ≠ [] := by
  exact ⟨by decide, by decide⟩

/-- C9 (amended): the export selection serializes exactly the current
results when only-filtered is enabled and the results list is non-empty;
when only-filtered is disabled, or the results list is empty, it serializes
the full loaded registry. -/
theorem c9_theorem :
    ∀ (results : List AreaData) (appData : Option (List AreaData)),
      getDataToExport false results appData = appData.getD [] ∧
      (results ≠ [] → getDataToExport true results appData = results) ∧
      getDataToExport true [] appData = appData.getD [] := by
  intro results appData
  refine ⟨rfl, fun h => ?_, by simp [getDataToExport]⟩
  have : 0 < results.length := List.length_pos.mpr h
  simp [getDataToExport, this]

/-- C9 witness: the amended export behaviour at a concrete non-empty
results list. -/
theorem c9_witness :
    getDataToExport true [⟨1, "a.com", "A", ⟨0, 0, 1, 1⟩, none, false⟩]
        (some []) = [⟨1, "a.com", "A", ⟨0, 0, 1, 1⟩, none, false⟩] :=
  (c9_theorem [⟨1, "a.com", "A", ⟨0, 0, 1, 1⟩, none, false⟩] (some [])).2.1
    (by decide)

theorem runAttempts_le :
    ∀ (outcomes : List (Except LoadErrorKind Unit)) (a : Nat), a ≤ 3 →
      runAttempts a outcomes ≤ 4 - a := by
  intro outcomes
  induction outcomes with
  | nil => intro a ha; simp [runAttempts]
  | cons o rest ih =>
    intro a ha
    cases o with
    | ok u =>
      show 1 + 0 ≤ 4 - a
      omega
    | error e =>
      show 1 + (if retriesAfterFailure a true e = true then
        runAttempts (a + 1) rest else 0) ≤ 4 - a
      by_cases h : retriesAfterFailure a true e = true
      · have ha3 : a < 3 := by
          simpa [retriesAfterFailure] using h
        have hrec := ih (a + 1) (by omega)
        rw [if_pos h]
        omega
      · rw [if_neg h]
        omega

/-- C8: corrected. The automatic retry decision of `loadAppData` does not
consult the error kind: a JSON parse error and the top-level document
validation errors on the first attempt while online are retried exactly as
a network error would be, contradicting the claim that they are terminal
immediately. -/
theorem c8_counterexample :
    retriesAfterFailure 1 true LoadErrorKind.jsonParse = true ∧
    retriesAfterFailure 1 true LoadErrorKind.emptyAreas = true ∧
    retriesAfterFailure 1 true LoadErrorKind.invalidTotalAreas = true := by
  exact ⟨by decide, by decide, by decide⟩

/-- C8 (amended): every error kind thrown by the dataset load, including
parse and validation errors, is retried automatically while the browser is
online, up to 3 total attempts with exponential backoff of 2s then 4s;
after the third failed attempt (or when offline) no further automatic
attempt happens and the error state is surfaced with the manual retry
action. -/
theorem c8_theorem :
    (∀ (a : Nat) (ol : Bool) (e e' : LoadErrorKind),
      retriesAfterFailure a ol e = retriesAfterFailure a ol e') ∧
    (∀ e : LoadErrorKind,
      retriesAfterFailure 1 true e = true ∧
      retriesAfterFailure 2 true e = true ∧
      retriesAfterFailure 3 true e = false) ∧
    (∀ (a : Nat) (e : LoadErrorKind), retriesAfterFailure a false e = false) ∧
    retryDelayMs 1 = 2000 ∧ retryDelayMs 2 = 4000 ∧
    (∀ outcomes : List (Except LoadErrorKind Unit), totalAttempts outcomes ≤ 3) := by
  refine ⟨fun a ol e e' => rfl, fun e => ⟨rfl, rfl, rfl⟩,
    fun a e => by simp [retriesAfterFailure], rfl, rfl, fun outcomes => ?_⟩
  have := runAttempts_le outcomes 1 (by omega)
  simpa [totalAttempts] using this

/-- C3: corrected. An area with a null analytics record is not excluded by
every active analytics-based filter: the active `hasNameservers = false`
filter matches it (no analytics means no nameservers), so the area stays in
the filtered results. -/
theorem c3_counterexample :
    (⟨9, "bare.com", "Bare", ⟨0, 0, 2, 2⟩, none, false⟩ : AreaData).analytics
        = none ∧
    ({ emptyFilters with hasNameservers := some false } : SearchFilters).hasNameservers
        = some false ∧
    applyFilters [⟨9, "bare.com", "Bare", ⟨0, 0, 2, 2⟩, none, false⟩]
        { emptyFilters with hasNameservers := some false } =
      [⟨9, "bare.com", "Bare", ⟨0, 0, 2, 2⟩, none, false⟩] := by
  exact ⟨rfl, rfl, by decide⟩

/-- C3 (amended): whenever an active analytics-based filter among
`dnsStatus`, `httpStatus`, `whoisStatus`, an active `dateRange`, or
`hasNameservers` asking for present nameservers constrains a field the area
cannot supply (null analytics record or absent field), the area is excluded
from the filtered results; only `hasNameservers = false` treats the absent
data as matching. -/
theorem c3_theorem :
    ∀ (f : SearchFilters) (a : AreaData) (areas : List AreaData),
      lacksConstrainedField f a → a ∉ applyFilters areas f := by
  intro f a areas h
  rcases h with ⟨hs, hn⟩ | ⟨hs, hn⟩ | ⟨hs, hn⟩ | ⟨hs, hn⟩ | ⟨hs, hn⟩
  · obtain ⟨v, hv⟩ := Option.isSome_iff_exists.mp hs
    exact not_mem_applyFilters_of areas (by simp [hasActiveFilters, hv])
      (by simp [matchesFilters, condDns, hv, hn])
  · obtain ⟨v, hv⟩ := Option.isSome_iff_exists.mp hs
    exact not_mem_applyFilters_of areas (by simp [hasActiveFilters, hv])
      (by simp [matchesFilters, condHttp, hv, hn])
  · obtain ⟨v, hv⟩ := Option.isSome_iff_exists.mp hs
    exact not_mem_applyFilters_of areas (by simp [hasActiveFilters, hv])
      (by simp [matchesFilters, condWhois, hv, hn])
  · match hd : f.dateRange with
    | none => simp [hd] at hs
    | some (s, e) =>
      refine not_mem_applyFilters_of areas (by simp [hasActiveFilters, hd]) ?_
      rw [hd] at hs
      have hs' : (s.isSome || e.isSome) = true := hs
      simp [matchesFilters, condDateRange, hd, hs', hn]
  · exact not_mem_applyFilters_of areas (by simp [hasActiveFilters, hs])
      (by simp [matchesFilters, condNameservers, hs, hn])

/-- C3 witness: a concrete null-analytics area is excluded when an active
`dnsStatus` filter is present. -/
theorem c3_witness :
    (⟨9, "bare.com", "Bare", ⟨0, 0, 2, 2⟩, none, false⟩ : AreaData) ∉
      applyFilters [⟨9, "bare.com", "Bare", ⟨0, 0, 2, 2⟩, none, false⟩]
        { emptyFilters with dnsStatus := some "NOERROR" } :=
  c3_theorem { emptyFilters with dnsStatus := some "NOERROR" }
    ⟨9, "bare.com", "Bare", ⟨0, 0, 2, 2⟩, none, false⟩
    [⟨9, "bare.com", "Bare", ⟨0, 0, 2, 2⟩, none, false⟩]
    (Or.inl ⟨rfl, rfl⟩)

theorem length_filter_mono {α : Type} {p q : α → Bool}
    (h : ∀ a, p a = true → q a = true) :
    ∀ l : List α, (l.filter p).length ≤ (l.filter q).length := by
  intro l
  induction l with
  | nil => simp
  | cons a t ih =>
    by_cases hp : p a = true
    · rw [List.filter_cons_of_pos hp, List.filter_cons_of_pos (h a hp)]
      simpa using ih
    · rw [List.filter_cons_of_neg hp]
      by_cases hq : q a = true
      · rw [List.filter_cons_of_pos hq]
        exact le_trans ih (by simp)
      · rw [List.filter_cons_of_neg hq]
        exact ih

theorem matchesFilters_mono {f f' : SearchFilters} (a : AreaData)
    (h : extendsByOne f f') (hm : matchesFilters f' a = true) :
    matchesFilters f a = true := by
  simp only [matchesFilters, Bool.and_eq_true] at hm ⊢
  obtain ⟨⟨⟨⟨⟨⟨p1, p2⟩, p3⟩, p4⟩, p5⟩, p6⟩, p7⟩ := hm
  rcases h with ⟨hn, v, rfl⟩ | ⟨hn, v, rfl⟩ | ⟨hn, v, rfl⟩ | ⟨hn, v, rfl⟩ |
    ⟨hn, v, rfl⟩ | ⟨hn, v, rfl⟩ | ⟨hn, v, rfl⟩
  · exact ⟨⟨⟨⟨⟨⟨by simp [condDns, hn], p2⟩, p3⟩, p4⟩, p5⟩, p6⟩, p7⟩
  · exact ⟨⟨⟨⟨⟨⟨p1, by simp [condHttp, hn]⟩, p3⟩, p4⟩, p5⟩, p6⟩, p7⟩
  · exact ⟨⟨⟨⟨⟨⟨p1, p2⟩, by simp [condWhois, hn]⟩, p4⟩, p5⟩, p6⟩, p7⟩
  · exact ⟨⟨⟨⟨⟨⟨p1, p2⟩, p3⟩, by simp [condHasAnalytics, hn]⟩, p5⟩, p6⟩, p7⟩
  · exact ⟨⟨⟨⟨⟨⟨p1, p2⟩, p3⟩, p4⟩, by simp [condDomainLength, hn]⟩, p6⟩, p7⟩
  · exact ⟨⟨⟨⟨⟨⟨p1, p2⟩, p3⟩, p4⟩, p5⟩, by simp [condDateRange, hn]⟩, p7⟩
  · exact ⟨⟨⟨⟨⟨⟨p1, p2⟩, p3⟩, p4⟩, p5⟩, p6⟩, by simp [condNameservers, hn]⟩

theorem hasActiveFilters_of_extendsByOne {f f' : SearchFilters}
    (h : extendsByOne f f') : hasActiveFilters f' = true := by
  rcases h with ⟨hn, v, rfl⟩ | ⟨hn, v, rfl⟩ | ⟨hn, v, rfl⟩ | ⟨hn, v, rfl⟩ |
    ⟨hn, v, rfl⟩ | ⟨hn, v, rfl⟩ | ⟨hn, v, rfl⟩ <;>
    simp [hasActiveFilters]

/-- C2: confirmed. Filtering preserves the candidate order (the output is a
subsequence of the input) and adding one additional active filter to a
filter set never increases the number of results. -/
theorem c2_theorem :
    ∀ (areas : List AreaData) (f f' : SearchFilters),
      (applyFilters areas f).Sublist areas ∧
      (extendsByOne f f' →
        (applyFilters areas f').length ≤ (applyFilters areas f).length) := by
  intro areas f f'
  constructor
  · unfold applyFilters
    split
    · exact List.filter_sublist areas
    · exact List.Sublist.refl areas
  · intro h
    have hact' := hasActiveFilters_of_extendsByOne h
    by_cases hact : hasActiveFilters f = true
    · simp only [applyFilters, hact, hact', if_true]
      exact length_filter_mono (fun a => matchesFilters_mono a h) areas
    · simp only [applyFilters, hact', if_true, if_neg hact]
      exact List.length_filter_le _ areas

/-- C2 witness: adding a `dnsStatus` filter to the empty filter set does
not increase the result count on a concrete one-area candidate list. -/
theorem c2_witness :
    (applyFilters [⟨2, "b.com", "B", ⟨0, 0, 1, 1⟩, none, false⟩]
        { emptyFilters with dnsStatus := some "NOERROR" }).length ≤
      (applyFilters [⟨2, "b.com", "B", ⟨0, 0, 1, 1⟩, none, false⟩]
        emptyFilters).length :=
  (c2_theorem [⟨2, "b.com", "B", ⟨0, 0, 1, 1⟩, none, false⟩] emptyFilters
      { emptyFilters with dnsStatus := some "NOERROR" }).2
    (Or.inl ⟨rfl, ⟨"NOERROR", rfl⟩⟩)

theorem find?_map_update (m : List (String × AreaData)) (k : String)
    (v : AreaData) (d : String) :
    (m.map (fun p => if p.1 == k then (k, v) else p)).find?
        (fun p => p.1 == d) =
      if d = k then (m.find? (fun p => p.1 == k)).map (fun _ => (k, v))
      else m.find? (fun p => p.1 == d) := by
  induction m with
  | nil => by_cases hd : d = k <;> simp [hd]
  | cons p t ih =>
    obtain ⟨pk, pv⟩ := p
    rw [List.map_cons]
    by_cases hk : pk = k
    · subst hk
      rw [if_pos (by simp)]
      by_cases hd : d = pk
      · subst hd
        rw [List.find?_cons_of_pos _ (by simp), if_pos rfl,
          List.find?_cons_of_pos _ (by simp)]
        rfl
      · rw [List.find?_cons_of_neg _
            (by simp only [beq_iff_eq]; exact fun h => hd h.symm),
          ih, if_neg hd, if_neg hd,
          List.find?_cons_of_neg _
            (by simp only [beq_iff_eq]; exact fun h => hd h.symm)]
    · rw [if_neg (by simpa using hk)]
      by_cases hd : d = k
      · subst hd
        rw [List.find?_cons_of_neg _ (by simpa using hk), ih, if_pos rfl,
          if_pos rfl, List.find?_cons_of_neg _ (by simpa using hk)]
      · by_cases hpd : pk = d
        · rw [List.find?_cons_of_pos _ (by simpa using hpd), if_neg hd,
            List.find?_cons_of_pos _ (by simpa using hpd)]
        · rw [List.find?_cons_of_neg _ (by simpa using hpd), ih, if_neg hd,
            if_neg hd, List.find?_cons_of_neg _ (by simpa using hpd)]

theorem mapGet_jsMapSet (m : List (String × AreaData)) (k : String)
    (v : AreaData) (d : String) :
    mapGet (jsMapSet m k v) d = if d = k then some v else mapGet m d := by
  unfold jsMapSet mapGet
  by_cases hany : m.any (fun p => p.1 == k) = true
  · rw [if_pos hany, find?_map_update]
    by_cases hd : d = k
    · rw [if_pos hd, if_pos hd]
      obtain ⟨p, hp, hpk⟩ := List.any_eq_true.mp hany
      have hex : (m.find? (fun p => p.1 == k)).isSome = true := by
        cases hfind : m.find? (fun p => p.1 == k) with
        | none => exact absurd hpk (List.find?_eq_none.mp hfind p hp)
        | some q => rfl
      obtain ⟨q, hq⟩ := Option.isSome_iff_exists.mp hex
      rw [hq]
      rfl
    · rw [if_neg hd, if_neg hd]
  · rw [if_neg hany, List.find?_append]
    by_cases hd : d = k
    · subst hd
      have hnone : m.find? (fun p => p.1 == d) = none :=
        List.find?_eq_none.mpr (by
          simpa using List.any_eq_false.mp (Bool.eq_false_iff.mpr hany))
      rw [hnone, if_pos rfl, List.find?_cons_of_pos _ (by simp)]
      rfl
    · have h1 : List.find? (fun p => p.1 == d) [(k, v)] = none := by
        rw [List.find?_cons_of_neg _
          (by simp only [beq_iff_eq]; exact fun h => hd h.symm)]
        rfl
      rw [h1, if_neg hd]
      cases m.find? (fun p => p.1 == d) <;> rfl

theorem mapGet_buildDomainMap_aux (d : String) :
    ∀ (areas : List AreaData) (m : List (String × AreaData)),
      mapGet (areas.foldl (fun m a => jsMapSet m a.domain a) m) d =
        match areas.reverse.find? (fun a => a.domain == d) with
        | some a => some a
        | none => mapGet m d := by
  intro areas
  induction areas with
  | nil => intro m; rfl
  | cons a as ih =>
    intro m
    rw [List.foldl_cons, ih, List.reverse_cons, List.find?_append]
    cases hfind : as.reverse.find? (fun x => x.domain == d) with
    | some x => rfl
    | none =>
      rw [mapGet_jsMapSet]
      by_cases hda : d = a.domain
      · simp [hda]
      · have : (a.domain == d) = false := by
          simpa using fun h => hda h.symm
        simp [this, hda]

/-- C7: corrected. With two areas sharing the domain "d.com", the domain
lookup map returns the second (last inserted) area, not the first: each
`Map.set` on a duplicate key overwrites the earlier value. -/
theorem c7_counterexample :
    mapGet (buildDomainMap
        [⟨0, "d.com", "A", ⟨0, 0, 1, 1⟩, none, false⟩,
         ⟨1, "d.com", "B", ⟨0, 0, 1, 1⟩, none, false⟩]) "d.com" =
      some ⟨1, "d.com", "B", ⟨0, 0, 1, 1⟩, none, false⟩ ∧
    some (⟨1, "d.com", "B", ⟨0, 0, 1, 1⟩, none, false⟩ : AreaData) ≠
      some ⟨0, "d.com", "A", ⟨0, 0, 1, 1⟩, none, false⟩ := by
  exact ⟨by decide, by decide⟩

/-- C7 (amended): for every dataset, the by-domain lookup returns the last
area with that domain in insertion order from the source dataset (the first
match scanning the dataset in reverse), because `Map.set` overwrites the
value stored for a duplicate key. -/
theorem c7_theorem :
    ∀ (areas : List AreaData) (d : String),
      mapGet (buildDomainMap areas) d =
        areas.reverse.find? (fun a => a.domain == d) := by
  intro areas d
  rw [buildDomainMap, mapGet_buildDomainMap_aux]
  cases areas.reverse.find? (fun a => a.domain == d) <;> rfl

theorem mem_dedupFirstAux :
    ∀ (l seen : List String) (x : String),
      x ∈ dedupFirstAux seen l ↔ x ∈ l ∧ x ∉ seen := by
  intro l
  induction l with
  | nil => intro seen x; simp [dedupFirstAux]
  | cons a t ih =>
    intro seen x
    by_cases ha : a ∈ seen
    · rw [show dedupFirstAux seen (a :: t) = dedupFirstAux seen t from by
        simp [dedupFirstAux, ha]]
      rw [ih]
      constructor
      · rintro ⟨hx, hs⟩
        exact ⟨List.mem_cons_of_mem _ hx, hs⟩
      · rintro ⟨hx, hs⟩
        rcases List.mem_cons.mp hx with rfl | hx
        · exact absurd ha hs
        · exact ⟨hx, hs⟩
    · rw [show dedupFirstAux seen (a :: t) = a :: dedupFirstAux (a :: seen) t
        from by simp [dedupFirstAux, ha]]
      rw [List.mem_cons, ih]
      constructor
      · rintro (rfl | ⟨hx, hs⟩)
        · exact ⟨List.mem_cons_self _ _, ha⟩
        · refine ⟨List.mem_cons_of_mem _ hx, fun hxs => hs ?_⟩
          exact List.mem_cons_of_mem _ hxs
      · rintro ⟨hx, hs⟩
        rcases List.mem_cons.mp hx with rfl | hx
        · exact Or.inl rfl
        · by_cases hxa : x = a
          · exact Or.inl hxa
          · refine Or.inr ⟨hx, fun hxs => ?_⟩
            rcases List.mem_cons.mp hxs with h | h
            · exact hxa h
            · exact hs h

theorem nodup_dedupFirstAux :
    ∀ (l seen : List String), (dedupFirstAux seen l).Nodup := by
  intro l
  induction l with
  | nil => intro seen; simp [dedupFirstAux]
  | cons a t ih =>
    intro seen
    by_cases ha : a ∈ seen
    · rw [show dedupFirstAux seen (a :: t) = dedupFirstAux seen t from by
        simp [dedupFirstAux, ha]]
      exact ih seen
    · rw [show dedupFirstAux seen (a :: t) = a :: dedupFirstAux (a :: seen) t
        from by simp [dedupFirstAux, ha]]
      refine List.nodup_cons.mpr ⟨fun hmem => ?_, ih (a :: seen)⟩
      exact ((mem_dedupFirstAux t (a :: seen) a).mp hmem).2
        (List.mem_cons_self a seen)

theorem dedupFirst_nodup (l : List String) : (dedupFirst l).Nodup :=
  nodup_dedupFirstAux l []

theorem dedupFirst_toFinset (l : List String) :
    (dedupFirst l).toFinset = l.toFinset := by
  ext x
  simp [dedupFirst, List.mem_toFinset, mem_dedupFirstAux]

theorem step_highlighted_nodup (fuse : String → List AreaData)
    (areas : List AreaData) (s : QueryState) (a : Action)
    (h : s.highlightedAreas.Nodup) :
    (step fuse areas s a).highlightedAreas.Nodup := by
  cases a with
  | setSearchQuery q => exact dedupFirst_nodup _
  | setFilters f => exact dedupFirst_nodup _
  | setSelectedDomain d => exact h
  | clearSearch => exact List.nodup_nil
  | highlightDomain d =>
    simp only [step]
    by_cases hd : d ∈ s.highlightedAreas
    · rw [if_pos hd]
      exact h
    · rw [if_neg hd]
      refine List.nodup_append.mpr ⟨h, List.nodup_singleton d, ?_⟩
      intro x hx hx'
      rcases List.mem_singleton.mp hx' with rfl
      exact hd hx
  | clearHighlights => exact List.nodup_nil

theorem foldl_step_nodup (fuse : String → List AreaData)
    (areas : List AreaData) :
    ∀ (acts : List Action) (s : QueryState), s.highlightedAreas.Nodup →
      (acts.foldl (step fuse areas) s).highlightedAreas.Nodup := by
  intro acts
  induction acts with
  | nil => intro s h; exact h
  | cons a t ih =>
    intro s h
    exact ih _ (step_highlighted_nodup fuse areas s a h)

/-- C10: confirmed. After any sequence of store actions on a loaded
registry, the highlight list contains no duplicate domain: the search and
filter actions deduplicate through the set construction, `highlightDomain`
guards on membership before appending, and the clearing actions reset to
the empty list. -/
theorem c10_theorem :
    ∀ (fuse : String → List AreaData) (areas : List AreaData)
      (acts : List Action),
      (runActions fuse areas acts).highlightedAreas.Nodup :=
  fun fuse areas acts =>
    foldl_step_nodup fuse areas acts initialState List.nodup_nil

/-- C1: corrected. The claimed invariant fails at a reachable state: after
`clearSearch` on a one-area registry the stored `results` is the empty
list, while the claimed derivation (empty query means no text filter, no
active structured filter) yields the full registry contents. -/
theorem c1_counterexample :
    (runActions (fun _ => [])
        [⟨0, "example.com", "Example", ⟨0, 0, 10, 10⟩, none, false⟩]
        [Action.clearSearch]).results = [] ∧
    specResultsClaim (fun _ => [])
        [⟨0, "example.com", "Example", ⟨0, 0, 10, 10⟩, none, false⟩]
        (runActions (fun _ => [])
          [⟨0, "example.com", "Example", ⟨0, 0, 10, 10⟩, none, false⟩]
          [Action.clearSearch]).query
        (runActions (fun _ => [])
          [⟨0, "example.com", "Example", ⟨0, 0, 10, 10⟩, none, false⟩]
          [Action.clearSearch]).filters =
      [⟨0, "example.com", "Example", ⟨0, 0, 10, 10⟩, none, false⟩] ∧
    ([] : List AreaData) ≠
      [⟨0, "example.com", "Example", ⟨0, 0, 10, 10⟩, none, false⟩] := by
  exact ⟨rfl, by decide, by decide⟩

/-- C1 (amended): the claimed coupling holds at every state whose last
action is `setSearchQuery` or `setFilters`: `results` equals the registry
after the text-search step (fuzzy for trimmed length at least 2, prefix
match for length 1, no text filter but a 1000-entry cap when empty)
followed by the active structured filters, and `highlightedAreas` is
exactly the deduplicated (hence, as a set, the distinct) domain values of
`results`. The other actions break the coupling: `clearSearch` empties
`results` regardless of the registry, and `highlightDomain` and
`clearHighlights` change the highlight set without touching `results`. -/
theorem c1_theorem :
    ∀ (fuse : String → List AreaData) (areas : List AreaData)
      (acts : List Action) (a : Action),
      ((∃ q, a = Action.setSearchQuery q) ∨ (∃ f, a = Action.setFilters f)) →
      (runActions fuse areas (acts ++ [a])).results =
        applyFilters
          (textSearchStep fuse areas
            (runActions fuse areas (acts ++ [a])).query)
          (runActions fuse areas (acts ++ [a])).filters ∧
      (runActions fuse areas (acts ++ [a])).highlightedAreas =
        dedupFirst ((runActions fuse areas (acts ++ [a])).results.map
          (fun x => x.domain)) ∧
      (runActions fuse areas (acts ++ [a])).highlightedAreas.toFinset =
        ((runActions fuse areas (acts ++ [a])).results.map
          (fun x => x.domain)).toFinset := by
  intro fuse areas acts a h
  have hrun : runActions fuse areas (acts ++ [a]) =
      step fuse areas (acts.foldl (step fuse areas) initialState) a := by
    simp [runActions, List.foldl_append]
  rcases h with ⟨q, rfl⟩ | ⟨f, rfl⟩
  · rw [hrun]
    exact ⟨rfl, rfl, dedupFirst_toFinset _⟩
  · rw [hrun]
    exact ⟨rfl, rfl, dedupFirst_toFinset _⟩

/-- C1 witness: the amended coupling at the concrete state reached by a
single `setSearchQuery "ab"` on a one-area registry with a trivial fuzzy
index. -/
theorem c1_witness :
    (runActions (fun _ => [])
        [⟨0, "example.com", "Example", ⟨0, 0, 10, 10⟩, none, false⟩]
        ([] ++ [Action.setSearchQuery "ab"])).results =
      applyFilters
        (textSearchStep (fun _ => [])
          [⟨0, "example.com", "Example", ⟨0, 0, 10, 10⟩, none, false⟩]
          (runActions (fun _ => [])
            [⟨0, "example.com", "Example", ⟨0, 0, 10, 10⟩, none, false⟩]
            ([] ++ [Action.setSearchQuery "ab"])).query)
        (runActions (fun _ => [])
          [⟨0, "example.com", "Example", ⟨0, 0, 10, 10⟩, none, false⟩]
          ([] ++ [Action.setSearchQuery "ab"])).filters ∧
    (runActions (fun _ => [])
        [⟨0, "example.com", "Example", ⟨0, 0, 10, 10⟩, none, false⟩]
        ([] ++ [Action.setSearchQuery "ab"])).highlightedAreas =
      dedupFirst ((runActions (fun _ => [])
        [⟨0, "example.com", "Example", ⟨0, 0, 10, 10⟩, none, false⟩]
        ([] ++ [Action.setSearchQuery "ab"])).results.map
          (fun x => x.domain)) ∧
    (runActions (fun _ => [])
        [⟨0, "example.com", "Example", ⟨0, 0, 10, 10⟩, none, false⟩]
        ([] ++ [Action.setSearchQuery "ab"])).highlightedAreas.toFinset =
      ((runActions (fun _ => [])
        [⟨0, "example.com", "Example", ⟨0, 0, 10, 10⟩, none, false⟩]
        ([] ++ [Action.setSearchQuery "ab"])).results.map
          (fun x => x.domain)).toFinset :=
  c1_theorem (fun _ => [])
    [⟨0, "example.com", "Example", ⟨0, 0, 10, 10⟩, none, false⟩]
    [] (Action.setSearchQuery "ab") (Or.inl ⟨"ab", rfl⟩)

end MDH
